import Mathlib

/-!
Shallow embedding of the `rate-limiter-rs` library (repository `dili91/rate-limiting`).

The embedding models, faithfully to the Rust source:

* the request-identity keying scheme (`build_request_key`, `src/lib.rs`);
* the token-bucket check (`src/rate_limiters/token_bucket.rs`) and the
  fixed-window check (`src/rate_limiters/fixed_window.rs`) as state
  transformers over a Redis counter entry (an integer value plus an
  optional TTL);
* the sliding-window check (`src/rate_limiters/sliding_window.rs`) as a
  state transformer over a Redis sorted set of timestamps, here a list of
  nanosecond scores kept in strictly descending order, together with the
  literal command sequence the transaction issues;
* the token-bucket builder (`src/builders/token_bucket.rs`).

Machine integers are modelled with `Nat`/`Int` plus explicit `% 2^64`
where the source casts (`as u64`) or where the Redis client's numeric
conversion (`Value::Int(val) => val as u64`, a two's-complement cast)
matters.  Durations are modelled as natural numbers of nanoseconds;
second-valued replies are converted with `secsToNanos` exactly where the
source calls `Duration::from_secs`.
-/

/-- Nanoseconds in one second, the factor used by `Duration::from_secs`. -/
def nanosPerSec : Nat := 1000000000

/-- Conversion applied by `Duration::from_secs` on a `u64` of seconds. -/
def secsToNanos (s : Nat) : Nat := s * nanosPerSec

/-- Size of the `u64` value space. -/
def u64Mod : Nat := 2 ^ 64

/-- Models the redis client's conversion of a signed integer reply into a
`u64` destination (`Value::Int(val) => Ok(val as u64)`): a two's-complement
cast. -/
def u64OfInt (i : Int) : Nat := (i % (u64Mod : Int)).toNat

/-- Unchecked `u64` subtraction `a - b` as compiled in release mode
(two's-complement wrap-around); both arguments are assumed `< 2^64`. -/
def u64Sub (a b : Nat) : Nat := (u64Mod + a - b) % u64Mod

/-- Models `RequestIdentifier` (`src/entities.rs`).  The `Ip` constructor
carries the textual rendering of the address, which is what
`format!("rl:ip_{}", ip)` interpolates; the standard library's rendering of
an `IpAddr` is injective, so address equality coincides with equality of the
carried string. -/
inductive RequestIdentifier where
  | Ip (addr : String)
  | Custom (key : String) (value : String)
deriving DecidableEq

/-- Models `build_request_key` (`src/lib.rs`, lines 22-30):
`Ip(ip)` maps to `"rl:ip_" + ip` and `Custom{key, value}` maps to
`"rl:cst_" + key + ":" + value`. -/
def build_request_key : RequestIdentifier → String
  | .Ip ip => "rl:ip_" ++ ip
  | .Custom key value => "rl:cst_" ++ key ++ ":" ++ value

/-- Models `RateLimiterResponse` (`src/entities.rs`); `retry_in` is a
duration in nanoseconds. -/
inductive RateLimiterResponse where
  | RequestAllowed (remaining_request_counter : Nat)
  | RequestThrottled (retry_in : Nat)
deriving DecidableEq

/-- A Redis string key holding an integer counter, plus its optional TTL in
seconds (`none` means the key has no expiry). -/
structure CounterEntry where
  value : Int
  ttl : Option Nat
deriving DecidableEq

/-- The store state under one request key: `none` when the key is absent. -/
abbrev CounterState := Option CounterEntry

/-- Semantics of `SETNX key v`: create the key (without TTL) only if absent. -/
def setnx (v : Int) : CounterState → CounterState
  | none => some ⟨v, none⟩
  | some e => some e

/-- Semantics of `EXPIRE key secs NX`: set the TTL only when the key exists
and has none; per Redis, applying a non-positive timeout deletes the key. -/
def expireNX (secs : Nat) : CounterState → CounterState
  | none => none
  | some e =>
    match e.ttl with
    | some _ => some e
    | none => if secs = 0 then none else some ⟨e.value, some secs⟩

/-- Semantics of `INCRBY key delta`: a missing key counts as 0 and is
created; returns the updated value. -/
def incrBy (delta : Int) : CounterState → Int × CounterState
  | none => (delta, some ⟨delta, none⟩)
  | some e => (e.value + delta, some ⟨e.value + delta, e.ttl⟩)

/-- Semantics of `TTL key`: `-2` when the key is absent, `-1` when it has no
expiry, otherwise the remaining seconds. -/
def ttlCmd : CounterState → Int
  | none => -2
  | some e =>
    match e.ttl with
    | none => -1
    | some t => (t : Int)

/-- Models `TokenBucketRateLimiter` (`src/rate_limiters/token_bucket.rs`);
`bucket_validity` is in whole seconds, the value `bucket_validity.as_secs()`
passed to `EXPIRE`. -/
structure TokenBucketRateLimiter where
  bucket_size : Nat
  bucket_validity : Nat

/-- The transaction body of `TokenBucketRateLimiter::check_request`
(`src/rate_limiters/token_bucket.rs`, lines 111-128): `SETNX key
bucket_size`, `EXPIRE key bucket_validity NX`, `INCRBY key -1` (captured),
`TTL key` (captured).  Returns the two captured replies and the post state. -/
def TokenBucketRateLimiter.transact (rl : TokenBucketRateLimiter)
    (s : CounterState) : (Int × Int) × CounterState :=
  let s1 := setnx (rl.bucket_size : Int) s
  let s2 := expireNX rl.bucket_validity s1
  let (v, s3) := incrBy (-1) s2
  ((v, ttlCmd s3), s3)

/-- Models `TokenBucketRateLimiter::check_request` after the transaction
(`src/rate_limiters/token_bucket.rs`, lines 130-140): the TTL reply is
captured into a `u64` (`expire_in_seconds`), and the decision is made on the
sign of `remaining_tokens`. -/
def TokenBucketRateLimiter.check_request (rl : TokenBucketRateLimiter)
    (s : CounterState) : RateLimiterResponse × CounterState :=
  let r := rl.transact s
  let remaining_tokens := r.1.1
  let expire_in_seconds := u64OfInt r.1.2
  if 0 ≤ remaining_tokens then
    (.RequestAllowed remaining_tokens.toNat, r.2)
  else
    (.RequestThrottled (secsToNanos expire_in_seconds), r.2)

/-- Models `FixedWindowRateLimiter` (`src/rate_limiters/fixed_window.rs`);
`window_validity` is in whole seconds. -/
structure FixedWindowRateLimiter where
  window_size : Nat
  window_validity : Nat

/-- The transaction body of `FixedWindowRateLimiter::check_request`
(`src/rate_limiters/fixed_window.rs`, lines 96-113): `SETNX key 0`,
`EXPIRE key window_validity NX`, `INCRBY key 1` (captured), `TTL key`
(captured). -/
def FixedWindowRateLimiter.transact (rl : FixedWindowRateLimiter)
    (s : CounterState) : (Int × Int) × CounterState :=
  let s1 := setnx 0 s
  let s2 := expireNX rl.window_validity s1
  let (n, s3) := incrBy 1 s2
  ((n, ttlCmd s3), s3)

/-- Models `FixedWindowRateLimiter::check_request` after the transaction
(`src/rate_limiters/fixed_window.rs`, lines 115-123): both captured replies
land in `u64` slots (`executed_request_counter`, `expire_in_seconds`); the
counter is compared against `window_size`. -/
def FixedWindowRateLimiter.check_request (rl : FixedWindowRateLimiter)
    (s : CounterState) : RateLimiterResponse × CounterState :=
  let r := rl.transact s
  let executed_request_counter := u64OfInt r.1.1
  let expire_in_seconds := u64OfInt r.1.2
  if executed_request_counter ≤ rl.window_size then
    (.RequestAllowed (rl.window_size - executed_request_counter), r.2)
  else
    (.RequestThrottled (secsToNanos expire_in_seconds), r.2)

/-- Models `SlidingWindowRateLimiter` (`src/rate_limiters/sliding_window.rs`);
`window_duration` is in nanoseconds (the full `Duration` precision used by
`checked_sub` and `saturating_sub`; the `EXPIRE` command receives
`window_duration / nanosPerSec`, i.e. `as_secs()`). -/
structure SlidingWindowRateLimiter where
  window_size : Nat
  window_duration : Nat

/-- The sorted-set state under one request key: the member/score timestamps
in strictly descending order (Redis sorted sets hold distinct members; the
descending view is what `ZREVRANGEBYSCORE` returns). -/
abbrev SortedSetState := List Nat

/-- Semantics of `ZADD key NX x x` on the descending view: insert the score
`x` at its position unless it is already a member. -/
def zaddNX (x : Nat) : SortedSetState → SortedSetState
  | [] => [x]
  | y :: ys =>
    if y < x then x :: y :: ys
    else if x = y then y :: ys
    else y :: zaddNX x ys

/-- Semantics of `ZREMRANGEBYSCORE key -inf (ws`: drop every score strictly
below `ws`. -/
def zremBelow (ws : Nat) (l : SortedSetState) : SortedSetState :=
  l.filter fun x => decide (ws ≤ x)

/-- The sorted set after the mutating commands of one sliding-window check
at wall-clock time `nowNs`: purge below `nowNs - windowDurationNs`, then
`ZADD NX` the current timestamp cast to `u64`. -/
def swPostState (windowDurationNs nowNs : Nat) (l : SortedSetState) : SortedSetState :=
  zaddNX (nowNs % u64Mod) (zremBelow (nowNs - windowDurationNs) l)

/-- The reply of `ZREVRANGEBYSCORE key +inf -inf LIMIT 0 5` inside the
sliding-window transaction: the newest timestamps, capped at the literal
constant 5 that the source passes as the LIMIT count
(`src/rate_limiters/sliding_window.rs`, line 139). -/
def swNewestReply (windowDurationNs nowNs : Nat) (l : SortedSetState) : List Nat :=
  (swPostState windowDurationNs nowNs l).take 5

/-- Models the binding `oldest_request_epoch_time`
(`src/rate_limiters/sliding_window.rs`, lines 147-150): the last element of
the `ZREVRANGEBYSCORE` reply, or 0 when the reply is empty. -/
def oldest_request_epoch_time (newest : List Nat) : Nat :=
  (newest.getLast?).getD 0

/-- Models the decision tail of `SlidingWindowRateLimiter::check_request`
(`src/rate_limiters/sliding_window.rs`, lines 147-164) as a function of the
raw transaction replies: the `ZCOUNT` reply `requestCount` and the
`ZREVRANGEBYSCORE` reply `newest`.  `now64` is `current_ts_epoch_time as
u64`.  The throttled branch subtracts with unchecked `u64` arithmetic and
then saturates against the window duration. -/
def swDecision (windowSize windowDurationNs now64 : Nat) (requestCount : Nat)
    (newest : List Nat) : RateLimiterResponse :=
  if requestCount ≤ windowSize then
    .RequestAllowed (windowSize - requestCount)
  else
    .RequestThrottled
      (windowDurationNs - u64Sub now64 (oldest_request_epoch_time newest))

/-- Models `SlidingWindowRateLimiter::check_request`
(`src/rate_limiters/sliding_window.rs`, lines 100-167) against the sorted
set stored under the request key.  `none` models the `ComputeError` raised
by `as_epoch_time` when the window start would lie before the Unix epoch
(`nowNs < window_duration`).  Otherwise the transaction purges, inserts the
current timestamp, counts (`ZCOUNT -inf +inf`), retrieves the newest
timestamps (`LIMIT 0 5`), refreshes the TTL, and decides. -/
def SlidingWindowRateLimiter.check_request (rl : SlidingWindowRateLimiter)
    (nowNs : Nat) (l : SortedSetState) :
    Option (RateLimiterResponse × SortedSetState) :=
  if nowNs < rl.window_duration then none
  else
    let l2 := swPostState rl.window_duration nowNs l
    let request_count := l2.length
    let newest := swNewestReply rl.window_duration nowNs l
    some (swDecision rl.window_size rl.window_duration (nowNs % u64Mod)
      request_count newest, l2)

/-- Expresses whether the unchecked `u64` subtraction
`current_ts_epoch_time as u64 - oldest_request_epoch_time` in the throttled
branch underflows during a sliding-window check (the expression is only
evaluated when the throttled branch is taken). -/
def swUnderflows (rl : SlidingWindowRateLimiter) (nowNs : Nat)
    (l : SortedSetState) : Bool :=
  if nowNs < rl.window_duration then false
  else
    let l2 := swPostState rl.window_duration nowNs l
    let newest := swNewestReply rl.window_duration nowNs l
    decide (rl.window_size < l2.length ∧
      nowNs % u64Mod < oldest_request_epoch_time newest)

/-- One argument of a Redis command as assembled by the source's pipeline
builder: either a string literal or a numeric value. -/
inductive RedisArg where
  | str (s : String)
  | nat (n : Nat)
deriving DecidableEq

/-- One Redis command: its name and its argument list. -/
structure RedisCommand where
  name : String
  args : List RedisArg
deriving DecidableEq

/-- The exact command sequence the sliding-window transaction issues
(`src/rate_limiters/sliding_window.rs`, lines 119-145), transcribed argument
by argument from the pipeline builder.  Note that the configured
`window_size` does not occur anywhere in the sequence: the LIMIT count of
the `ZREVRANGEBYSCORE` command is the string literal `"5"`. -/
def swTransactionCommands (windowDurationSecs : Nat) (key : String)
    (currentTsEpoch windowStartEpoch : Nat) : List RedisCommand :=
  [ ⟨"ZREMRANGEBYSCORE",
      [.str key, .str "-inf", .str ("(" ++ toString windowStartEpoch)]⟩,
    ⟨"ZADD",
      [.str key, .str "NX", .nat (currentTsEpoch % u64Mod),
        .nat (currentTsEpoch % u64Mod)]⟩,
    ⟨"ZCOUNT", [.str key, .str "-inf", .str "+inf"]⟩,
    ⟨"ZREVRANGEBYSCORE",
      [.str key, .str "+inf", .str "-inf", .str "LIMIT", .str "0", .str "5"]⟩,
    ⟨"EXPIRE", [.str key, .nat windowDurationSecs]⟩ ]

/-- Models `RedisSettings` (`src/builders/mod.rs`). -/
structure RedisSettings where
  host : String
  port : Nat
deriving DecidableEq

/-- Default Redis host (`src/builders/mod.rs`). -/
def DEFAULT_REDIS_HOST : String := "127.0.0.1"

/-- Default Redis port (`src/builders/mod.rs`). -/
def DEFAULT_REDIS_PORT : Nat := 6379

/-- Default bucket size (`src/builders/token_bucket.rs`). -/
def DEFAULT_BUCKET_SIZE : Nat := 5

/-- Default bucket validity, `Duration::from_secs(60)` in nanoseconds
(`src/builders/token_bucket.rs`). -/
def DEFAULT_BUCKET_VALIDITY : Nat := secsToNanos 60

/-- The configuration a successful `TokenBucketRateLimiterBuilder::build`
produces: the two bucket parameters (`bucket_validity` here in nanoseconds)
and the connection URL handed to `RedisClient::open` (building only creates
the client handle; no connection is attempted). -/
structure TokenBucketConfig where
  bucket_size : Nat
  bucket_validity : Nat
  redis_url : String
deriving DecidableEq

/-- Models `TokenBucketRateLimiterBuilder` (`src/builders/token_bucket.rs`):
three optional fields, all `None` in the `Default` instance. -/
structure TokenBucketRateLimiterBuilder where
  bucket_size : Option Nat := none
  bucket_validity : Option Nat := none
  redis_settings : Option RedisSettings := none

/-- The `Default::default()` builder: no field set. -/
def TokenBucketRateLimiterBuilder.mkDefault : TokenBucketRateLimiterBuilder := {}

/-- Models `TokenBucketRateLimiterBuilder::with_bucket_size`. -/
def TokenBucketRateLimiterBuilder.with_bucket_size
    (b : TokenBucketRateLimiterBuilder) (size : Nat) :
    TokenBucketRateLimiterBuilder :=
  { b with bucket_size := some size }

/-- Models `TokenBucketRateLimiterBuilder::with_bucket_validity`; the
argument is a duration in nanoseconds. -/
def TokenBucketRateLimiterBuilder.with_bucket_validity
    (b : TokenBucketRateLimiterBuilder) (bucket_validity : Nat) :
    TokenBucketRateLimiterBuilder :=
  { b with bucket_validity := some bucket_validity }

/-- Models `TokenBucketRateLimiterBuilder::with_redis_settings`. -/
def TokenBucketRateLimiterBuilder.with_redis_settings
    (b : TokenBucketRateLimiterBuilder) (redis_settings : RedisSettings) :
    TokenBucketRateLimiterBuilder :=
  { b with redis_settings := some redis_settings }

/-- Models `TokenBucketRateLimiterBuilder::build`
(`src/builders/token_bucket.rs`, lines 50-67): the Redis URL is
`redis://host:port` from the supplied settings or from the defaults, and
each unset bucket option falls back to its default. -/
def TokenBucketRateLimiterBuilder.build (b : TokenBucketRateLimiterBuilder) :
    TokenBucketConfig :=
  { bucket_size := b.bucket_size.getD DEFAULT_BUCKET_SIZE,
    bucket_validity := b.bucket_validity.getD DEFAULT_BUCKET_VALIDITY,
    redis_url :=
      match b.redis_settings with
      | some rs => "redis://" ++ rs.host ++ ":" ++ toString rs.port
      | none => "redis://" ++ DEFAULT_REDIS_HOST ++ ":" ++ toString DEFAULT_REDIS_PORT }

/-- Restriction under which the key format is unambiguous: `Custom` keys
must not contain the `':'` separator (values and `Ip` renderings are
unrestricted). -/
def colonFreeKey : RequestIdentifier → Prop
  | .Ip _ => True
  | .Custom k _ => ':' ∉ k.data

instance (i : RequestIdentifier) : Decidable (colonFreeKey i) :=
  match i with
  | .Ip _ => isTrue trivial
  | .Custom k _ => inferInstanceAs (Decidable (':' ∉ k.data))

/-- Count following the spec's words (§4.5): the number of distinct
timestamps in `[now - window_duration, now]` among the stored ones together
with the current request. -/
def specCountInWindow (windowDurationNs nowNs : Nat) (l : List Nat) : Nat :=
  ((nowNs :: l).dedup.filter fun x =>
    decide (nowNs - windowDurationNs ≤ x ∧ x ≤ nowNs)).length

/-- The store state after one sliding-window check (the state is unchanged
when the check fails with a compute error). -/
def swStep (rl : SlidingWindowRateLimiter) (nowNs : Nat) (l : SortedSetState) :
    SortedSetState :=
  match rl.check_request nowNs l with
  | some (_, l2) => l2
  | none => l

/-- The responses of a sequence of sliding-window checks performed at the
given wall-clock times, starting from the given stored state. -/
def swResponses (rl : SlidingWindowRateLimiter) :
    SortedSetState → List Nat → List (Option RateLimiterResponse)
  | _, [] => []
  | l, t :: ts =>
    (rl.check_request t l).map Prod.fst :: swResponses rl (swStep rl t l) ts

/-- The token-bucket store state under a fresh identity after `n` checks. -/
def tbStateAfter (rl : TokenBucketRateLimiter) : Nat → CounterState
  | 0 => none
  | n + 1 => (rl.check_request (tbStateAfter rl n)).2

/-- The response of the `n`-th (1-based) sequential token-bucket check on a
fresh identity. -/
def tbNthResponse (rl : TokenBucketRateLimiter) (n : Nat) : RateLimiterResponse :=
  (rl.check_request (tbStateAfter rl (n - 1))).1

/-- The fixed-window store state under a fresh identity after `n` checks. -/
def fwStateAfter (rl : FixedWindowRateLimiter) : Nat → CounterState
  | 0 => none
  | n + 1 => (rl.check_request (fwStateAfter rl n)).2

/-- The response of the `n`-th (1-based) sequential fixed-window check on a
fresh identity. -/
def fwNthResponse (rl : FixedWindowRateLimiter) (n : Nat) : RateLimiterResponse :=
  (rl.check_request (fwStateAfter rl (n - 1))).1

/-! ### Helper lemmas -/

/-- Splitting a character list at a separator that occurs in neither left
part is unambiguous. -/
theorem append_colon_split : ∀ (k1 k2 v1 v2 : List Char),
    ':' ∉ k1 → ':' ∉ k2 → k1 ++ ':' :: v1 = k2 ++ ':' :: v2 →
    k1 = k2 ∧ v1 = v2
  | [], [], _, _, _, _, h => by simpa using h
  | [], c :: k2, _, _, _, h2, h => by
    simp at h
    exact absurd (h.1 ▸ List.mem_cons_self c k2) h2
  | c :: k1, [], _, _, h1, _, h => by
    simp at h
    exact absurd (h.1 ▸ List.mem_cons_self c k1) h1
  | c :: k1, d :: k2, v1, v2, h1, h2, h => by
    simp at h
    obtain ⟨rfl, h⟩ := h
    have ih := append_colon_split k1 k2 v1 v2
      (fun hm => h1 (List.mem_cons_of_mem _ hm))
      (fun hm => h2 (List.mem_cons_of_mem _ hm)) h
    exact ⟨by rw [ih.1], ih.2⟩

/-- The TTL reply is never below the `-2` sentinel. -/
theorem ttlCmd_ge_neg_two (s : CounterState) : -2 ≤ ttlCmd s := by
  match s with
  | none => simp [ttlCmd]
  | some e =>
    match h : e.ttl with
    | none => simp [ttlCmd, h]
    | some t => simp [ttlCmd, h]; omega

/-! ### Sorted-set lemmas -/

/-- Membership in the `ZADD NX` result. -/
theorem mem_zaddNX {b a : Nat} : ∀ {l : List Nat}, b ∈ zaddNX a l ↔ b = a ∨ b ∈ l
  | [] => by simp [zaddNX]
  | y :: ys => by
    simp only [zaddNX]
    split
    · simp
    · split
      · subst a
        simp only [List.mem_cons]
        constructor
        · exact Or.inr
        · rintro (rfl | h) <;> [exact Or.inl rfl; exact h]
      · simp only [List.mem_cons, mem_zaddNX (l := ys)]
        constructor
        · rintro (rfl | h)
          · exact Or.inr (Or.inl rfl)
          · rcases h with h | h
            · exact Or.inl h
            · exact Or.inr (Or.inr h)
        · rintro (h | h | h)
          · exact Or.inr (Or.inl h)
          · exact Or.inl h
          · exact Or.inr (Or.inr h)

/-- On a strictly descending list, `ZADD NX` of an existing member is the
identity. -/
theorem zaddNX_of_mem {a : Nat} : ∀ {l : List Nat},
    List.Sorted (· > ·) l → a ∈ l → zaddNX a l = l
  | [], _, h => by simp at h
  | y :: ys, hs, h => by
    rcases List.mem_cons.1 h with rfl | hmem
    · simp [zaddNX]
    · have hya : y > a := (List.sorted_cons.1 hs).1 a hmem
      have h1 : ¬ y < a := by omega
      have h2 : ¬ a = y := by omega
      simp only [zaddNX, if_neg h1, if_neg h2]
      rw [zaddNX_of_mem (List.sorted_cons.1 hs).2 hmem]

/-- `ZADD NX` of a fresh member grows the set by one. -/
theorem length_zaddNX_of_not_mem {a : Nat} : ∀ {l : List Nat},
    a ∉ l → (zaddNX a l).length = l.length + 1
  | [], _ => rfl
  | y :: ys, h => by
    have hne : a ≠ y := fun hd => h (hd ▸ List.mem_cons_self y ys)
    have hmem : a ∉ ys := fun hm => h (List.mem_cons_of_mem y hm)
    by_cases hlt : y < a
    · simp [zaddNX, hlt]
    · simp [zaddNX, hlt, hne, length_zaddNX_of_not_mem hmem]

/-- A member produced by `getLast?` belongs to the list. -/
theorem mem_of_getLast?_eq_some {a : Nat} : ∀ {l : List Nat},
    l.getLast? = some a → a ∈ l
  | [], h => by simp at h
  | y :: ys, h => by
    have := List.getLast?_eq_getLast (y :: ys) (by simp)
    rw [this, Option.some.injEq] at h
    exact h ▸ List.getLast_mem _

/-- The code's oldest-timestamp extraction never exceeds a bound satisfied
by every list element. -/
theorem oldest_request_epoch_time_le {m : List Nat} {c : Nat}
    (h : ∀ x ∈ m, x ≤ c) : oldest_request_epoch_time m ≤ c := by
  unfold oldest_request_epoch_time
  cases hm : m.getLast? with
  | none => simp
  | some a => simpa using h a (mem_of_getLast?_eq_some hm)

/-- Every element of the post-transaction sorted set is bounded by the
current timestamp, provided the stored ones were. -/
theorem swPostState_le {d nowNs : Nat} {l : List Nat}
    (hle : ∀ x ∈ l, x ≤ nowNs) (hnow : nowNs < u64Mod) :
    ∀ x ∈ swPostState d nowNs l, x ≤ nowNs := by
  intro x hx
  rcases mem_zaddNX.1 hx with rfl | hx2
  · rw [Nat.mod_eq_of_lt hnow]
  · exact hle x (List.mem_of_mem_filter hx2)

/-- Strict descending order is preserved by the purge. -/
theorem zremBelow_sorted {ws : Nat} {l : List Nat}
    (hs : List.Sorted (· > ·) l) : List.Sorted (· > ·) (zremBelow ws l) :=
  hs.filter _

/-- Strictly descending lists have no duplicates. -/
theorem sorted_gt_nodup {l : List Nat} (hs : List.Sorted (· > ·) l) :
    l.Nodup :=
  hs.imp fun h => Nat.ne_of_gt h

/-- The `ZCOUNT` reply (the size of the set after purge and insert) equals
the count the spec describes: the number of distinct timestamps lying in
`[now - window_duration, now]` among the stored ones together with the
current one.  Requires the stored timestamps to be a strictly descending
set of values not exceeding the current `u64` timestamp. -/
theorem swPostState_length_eq_specCount {d nowNs : Nat} {l : List Nat}
    (hsorted : List.Sorted (· > ·) l) (hle : ∀ x ∈ l, x ≤ nowNs)
    (hnow : nowNs < u64Mod) :
    (swPostState d nowNs l).length = specCountInWindow d nowNs l := by
  have hnd : l.Nodup := sorted_gt_nodup hsorted
  have h64 : nowNs % u64Mod = nowNs := Nat.mod_eq_of_lt hnow
  have hfc : l.filter (fun x => decide (nowNs - d ≤ x)) =
      l.filter (fun x => decide (nowNs - d ≤ x ∧ x ≤ nowNs)) := by
    apply List.filter_congr
    intro x hx
    simp [hle x hx]
  by_cases hmem : nowNs ∈ l
  · have hd1 : (nowNs :: l).dedup = l := by
      rw [List.dedup_cons_of_mem hmem, hnd.dedup]
    have hmem2 : nowNs ∈ zremBelow (nowNs - d) l := by
      simp only [zremBelow, List.mem_filter]
      exact ⟨hmem, by simp [Nat.sub_le]⟩
    unfold swPostState specCountInWindow
    rw [h64, zaddNX_of_mem (zremBelow_sorted hsorted) hmem2, hd1]
    unfold zremBelow
    rw [hfc]
  · have hd1 : (nowNs :: l).dedup = nowNs :: l := by
      rw [List.dedup_cons_of_not_mem hmem, hnd.dedup]
    have hmem2 : nowNs ∉ zremBelow (nowNs - d) l := fun hm =>
      hmem (List.mem_of_mem_filter hm)
    unfold swPostState specCountInWindow
    rw [h64, length_zaddNX_of_not_mem hmem2, hd1]
    unfold zremBelow
    rw [hfc]
    simp [Nat.sub_le]

/-! ### C1 -/

/-- C1: the sliding-window transaction issues the commands of §4.5, but the
LIMIT count of the `ZREVRANGEBYSCORE` command is the string literal `"5"`
for every configuration: the command list does not depend on the configured
`window_size` at all, so for `window_size = 6` the issued limit `"5"`
differs from the claimed `window_size` rendering `"6"`.  (The remaining
commands, and the use of the reply's last element as the oldest timestamp,
do match the spec.) -/
theorem sliding_window_limit_is_hardcoded :
    (∀ (durSecs : Nat) (key : String) (now ws : Nat),
      (swTransactionCommands durSecs key now ws).get? 3 =
        some ⟨"ZREVRANGEBYSCORE",
          [.str key, .str "+inf", .str "-inf", .str "LIMIT", .str "0",
            .str "5"]⟩) ∧
    decide (toString (6 : Nat) = "5") = false :=
  ⟨fun _ _ _ _ => rfl, rfl⟩

/-! ### C2 -/

/-- C2 counterexample: two distinct `Custom` identities whose keys collide,
because the key separator `':'` may occur inside the custom key. -/
theorem build_request_key_collision :
    build_request_key (.Custom "a:b" "c") = build_request_key (.Custom "a" "b:c") ∧
    decide (RequestIdentifier.Custom "a:b" "c" = .Custom "a" "b:c") = false := by
  exact ⟨by decide, by decide⟩

/-- C2 amended: `build_request_key` is injective on identities whose
`Custom` key is free of the `':'` separator (for `Ip` the carried textual
rendering decides equality), and the two concrete formats are as documented. -/
theorem build_request_key_injective_on_colon_free :
    (∀ a b : RequestIdentifier, colonFreeKey a → colonFreeKey b →
      build_request_key a = build_request_key b → a = b) ∧
    build_request_key (.Ip "1.2.3.4") = "rl:ip_1.2.3.4" ∧
    build_request_key (.Custom "client_id" "dili91") = "rl:cst_client_id:dili91" := by
  refine ⟨?_, by decide, by decide⟩
  intro a b ha hb h
  cases a with
  | Ip ia =>
    cases b with
    | Ip ib =>
      have hd := congrArg String.data h
      simp only [build_request_key, String.data_append] at hd
      simp at hd
      rw [String.ext hd]
    | Custom k v =>
      have hd := congrArg String.data h
      simp only [build_request_key, String.data_append] at hd
      simp at hd
  | Custom k1 v1 =>
    cases b with
    | Ip ib =>
      have hd := congrArg String.data h
      simp only [build_request_key, String.data_append] at hd
      simp at hd
    | Custom k2 v2 =>
      have hd := congrArg String.data h
      simp only [build_request_key, String.data_append] at hd
      simp only [List.append_assoc, List.cons_append, List.nil_append] at hd
      have hd2 : k1.data ++ ':' :: v1.data = k2.data ++ ':' :: v2.data := by
        simpa using hd
      have := append_colon_split k1.data k2.data v1.data v2.data ha hb hd2
      rw [String.ext this.1, String.ext this.2]

/-- C2 amended, witness: the injectivity statement applied at a concrete
colon-free identity. -/
theorem build_request_key_injective_on_colon_free_witness :
    colonFreeKey (.Custom "client_id" "dili91") ∧
    RequestIdentifier.Custom "client_id" "dili91" = .Custom "client_id" "dili91" :=
  ⟨by decide, build_request_key_injective_on_colon_free.1
    (.Custom "client_id" "dili91") (.Custom "client_id" "dili91")
    (by decide) (by decide) rfl⟩

/-! ### C3 -/

/-- C3: for every token-bucket check, writing `v` for the `INCRBY key -1`
reply and `t` for the TTL reply as captured into the `u64` slot
`expire_in_seconds`, the decision is `RequestAllowed{remaining = v}` when
`v ≥ 0` and `RequestThrottled{retry_in = t seconds}` when `v < 0`; the
transaction is total, so no other outcome is possible. -/
theorem token_bucket_decision (rl : TokenBucketRateLimiter) (s : CounterState) :
    (0 ≤ (rl.transact s).1.1 →
      (rl.check_request s).1 = .RequestAllowed (rl.transact s).1.1.toNat) ∧
    ((rl.transact s).1.1 < 0 →
      (rl.check_request s).1 =
        .RequestThrottled (secsToNanos (u64OfInt (rl.transact s).1.2))) := by
  constructor
  · intro h
    simp [TokenBucketRateLimiter.check_request, h]
  · intro h
    simp [TokenBucketRateLimiter.check_request, not_le.mpr h]

/-- C3 witness: a fresh bucket of size 5 admits the first request with 4
tokens remaining. -/
theorem token_bucket_decision_witness :
    (0 : Int) ≤ (TokenBucketRateLimiter.transact ⟨5, 60⟩ none).1.1 ∧
    (TokenBucketRateLimiter.check_request ⟨5, 60⟩ none).1 = .RequestAllowed 4 :=
  ⟨by decide, ((token_bucket_decision ⟨5, 60⟩ none).1 (by decide)).trans (by decide)⟩

/-! ### C4 -/

/-- C4: for every fixed-window check, writing `n` for the `INCRBY key 1`
reply as captured into the `u64` slot `executed_request_counter` and `t` for
the captured TTL reply, the decision is `RequestAllowed{remaining =
window_size - n}` when `n ≤ window_size` and `RequestThrottled{retry_in = t
seconds}` when `n > window_size`. -/
theorem fixed_window_decision (rl : FixedWindowRateLimiter) (s : CounterState) :
    (u64OfInt (rl.transact s).1.1 ≤ rl.window_size →
      (rl.check_request s).1 =
        .RequestAllowed (rl.window_size - u64OfInt (rl.transact s).1.1)) ∧
    (rl.window_size < u64OfInt (rl.transact s).1.1 →
      (rl.check_request s).1 =
        .RequestThrottled (secsToNanos (u64OfInt (rl.transact s).1.2))) := by
  constructor
  · intro h
    simp [FixedWindowRateLimiter.check_request, h]
  · intro h
    simp [FixedWindowRateLimiter.check_request, not_le.mpr h]

/-- C4 witness: a fresh window of size 5 admits the first request with 4
remaining. -/
theorem fixed_window_decision_witness :
    u64OfInt (FixedWindowRateLimiter.transact ⟨5, 60⟩ none).1.1 ≤ 5 ∧
    (FixedWindowRateLimiter.check_request ⟨5, 60⟩ none).1 = .RequestAllowed 4 :=
  ⟨by decide, ((fixed_window_decision ⟨5, 60⟩ none).1 (by decide)).trans (by decide)⟩

/-! ### C6 -/

/-- C6 counterexample: with an empty `ZREVRANGEBYSCORE` reply the oldest
timestamp is indeed treated as 0, but the throttled decision carries
`retry_in = window_duration.saturating_sub(now)`, which at
`window_duration = 60s` and `now = 100s` (in nanoseconds) is 0, not the
claimed `window_duration`. -/
theorem sliding_window_empty_reply_zero :
    oldest_request_epoch_time [] = 0 ∧
    swDecision 5 60000000000 100000000000 6 [] = .RequestThrottled 0 ∧
    decide ((0 : Nat) = 60000000000) = false :=
  ⟨rfl, by decide, rfl⟩

/-- C6 amended: with an empty newest-timestamps reply the oldest timestamp
is treated as 0 and a throttled decision carries `retry_in =
window_duration - now` (saturating); this equals `window_duration` only when
the current timestamp is 0 and is 0 whenever `now ≥ window_duration`. -/
theorem sliding_window_empty_reply_behavior (W D now64 n : Nat)
    (hn : W < n) (hnow : now64 < u64Mod) :
    oldest_request_epoch_time [] = 0 ∧
    swDecision W D now64 n [] = .RequestThrottled (D - now64) := by
  refine ⟨rfl, ?_⟩
  have hsub : u64Sub now64 0 = now64 := by
    simp only [u64Sub, u64Mod] at *
    omega
  simp [swDecision, not_le.mpr hn, oldest_request_epoch_time, hsub]

/-- C6 amended, witness. -/
theorem sliding_window_empty_reply_behavior_witness :
    5 < 6 ∧ 100000000000 < u64Mod ∧
    swDecision 5 60000000000 100000000000 6 [] =
      .RequestThrottled (60000000000 - 100000000000) :=
  ⟨by decide, by decide,
    (sliding_window_empty_reply_behavior 5 60000000000 100000000000 6
      (by decide) (by decide)).2⟩

/-! ### C7 -/

/-- C7 counterexample: a token-bucket check in which the TTL command replies
with the `-1` sentinel (reachable with `bucket_validity.as_secs() = 0`,
since `EXPIRE key 0 NX` deletes the key and `INCRBY` recreates it without a
TTL).  The check does succeed, but the sentinel is not treated as
`retry_in = 0`: the client's unsigned cast turns `-1` into `2^64 - 1`
seconds. -/
theorem token_bucket_ttl_sentinel_not_zero :
    (TokenBucketRateLimiter.transact ⟨5, 0⟩ none).1.2 = -1 ∧
    (TokenBucketRateLimiter.check_request ⟨5, 0⟩ none).1 =
      .RequestThrottled (secsToNanos 18446744073709551615) ∧
    decide (secsToNanos 18446744073709551615 = 0) = false :=
  ⟨by decide, by decide, by decide⟩

/-- C7 amended: when the TTL command returns a negative sentinel (`-1` or
`-2`) in a throttled token-bucket check, the check still succeeds (no error
is propagated), but instead of being treated as `retry_in = 0` the sentinel
is cast unsigned into `expire_in_seconds`, making `retry_in` at least
`2^64 - 2` seconds. -/
theorem token_bucket_ttl_sentinel_behavior (rl : TokenBucketRateLimiter)
    (s : CounterState) (hv : (rl.transact s).1.1 < 0)
    (ht : (rl.transact s).1.2 < 0) :
    (rl.check_request s).1 =
      .RequestThrottled (secsToNanos (u64OfInt (rl.transact s).1.2)) ∧
    secsToNanos (u64Mod - 2) ≤ secsToNanos (u64OfInt (rl.transact s).1.2) := by
  constructor
  · simp [TokenBucketRateLimiter.check_request, not_le.mpr hv]
  · have hge : -2 ≤ (rl.transact s).1.2 := by
      have := ttlCmd_ge_neg_two ((incrBy (-1) (expireNX rl.bucket_validity
        (setnx (rl.bucket_size : Int) s))).2)
      simpa [TokenBucketRateLimiter.transact] using this
    have : u64Mod - 2 ≤ u64OfInt (rl.transact s).1.2 := by
      simp only [u64OfInt, u64Mod] at *
      omega
    exact Nat.mul_le_mul_right _ this

/-- C7 amended, witness. -/
theorem token_bucket_ttl_sentinel_behavior_witness :
    (TokenBucketRateLimiter.transact ⟨5, 0⟩ none).1.1 < 0 ∧
    (TokenBucketRateLimiter.check_request ⟨5, 0⟩ none).1 =
      .RequestThrottled (secsToNanos (u64OfInt (TokenBucketRateLimiter.transact ⟨5, 0⟩ none).1.2)) :=
  ⟨by decide, (token_bucket_ttl_sentinel_behavior ⟨5, 0⟩ none
    (by decide) (by decide)).1⟩

/-! ### C10 -/

/-- C10: building a token-bucket limiter with no setter applies exactly the
documented defaults (bucket size 5, validity 60 s = 60000000000 ns, store
URL `redis://127.0.0.1:6379`), and every value supplied through a `with_*`
setter overrides the corresponding default unchanged. -/
theorem token_bucket_builder_defaults :
    TokenBucketRateLimiterBuilder.mkDefault.build =
      ⟨5, 60000000000, "redis://127.0.0.1:6379"⟩ ∧
    (∀ sz : Nat, (TokenBucketRateLimiterBuilder.mkDefault.with_bucket_size sz).build =
      ⟨sz, 60000000000, "redis://127.0.0.1:6379"⟩) ∧
    (∀ d : Nat, (TokenBucketRateLimiterBuilder.mkDefault.with_bucket_validity d).build =
      ⟨5, d, "redis://127.0.0.1:6379"⟩) ∧
    (∀ rs : RedisSettings, (TokenBucketRateLimiterBuilder.mkDefault.with_redis_settings rs).build =
      ⟨5, 60000000000, "redis://" ++ rs.host ++ ":" ++ toString rs.port⟩) ∧
    (∀ (sz d : Nat) (rs : RedisSettings),
      (((TokenBucketRateLimiterBuilder.mkDefault.with_bucket_size sz).with_bucket_validity
          d).with_redis_settings rs).build =
        ⟨sz, d, "redis://" ++ rs.host ++ ":" ++ toString rs.port⟩) := by
  exact ⟨by rfl, fun sz => rfl, fun d => rfl, fun rs => rfl, fun sz d rs => rfl⟩

/-! ### C5 -/

/-- C5: a sliding-window check on a well-formed store state (a strictly
descending set of timestamps not exceeding the current `u64` wall-clock
time, with the current time at least one window after the epoch) completes
without error, and is allowed exactly when the count `n` of distinct
timestamps in `[now - window_duration, now]` — the current request included
— is at most `window_size`, with `remaining = window_size - n`; otherwise it
is throttled with `retry_in = window_duration - (now_ns - oldest_ns)`
saturating at zero, where `oldest_ns` is the last element of the retrieved
newest-timestamps list. -/
theorem sliding_window_decision_follows_spec (rl : SlidingWindowRateLimiter)
    (nowNs : Nat) (l : SortedSetState)
    (hsorted : List.Sorted (· > ·) l) (hle : ∀ x ∈ l, x ≤ nowNs)
    (hnow : nowNs < u64Mod) (hD : rl.window_duration ≤ nowNs) :
    (specCountInWindow rl.window_duration nowNs l ≤ rl.window_size →
      rl.check_request nowNs l =
        some (.RequestAllowed
            (rl.window_size - specCountInWindow rl.window_duration nowNs l),
          swPostState rl.window_duration nowNs l)) ∧
    (rl.window_size < specCountInWindow rl.window_duration nowNs l →
      rl.check_request nowNs l =
        some (.RequestThrottled (rl.window_duration - (nowNs -
            oldest_request_epoch_time (swNewestReply rl.window_duration nowNs l))),
          swPostState rl.window_duration nowNs l)) := by
  have hcount := swPostState_length_eq_specCount (d := rl.window_duration)
    hsorted hle hnow
  have hif : ¬ nowNs < rl.window_duration := not_lt.mpr hD
  have h64 : nowNs % u64Mod = nowNs := Nat.mod_eq_of_lt hnow
  constructor
  · intro h
    simp only [SlidingWindowRateLimiter.check_request, if_neg hif,
      swDecision, hcount, if_pos h]
  · intro h
    have holdest : oldest_request_epoch_time
        (swNewestReply rl.window_duration nowNs l) ≤ nowNs :=
      oldest_request_epoch_time_le fun x hx =>
        swPostState_le hle hnow x (List.take_subset _ _ hx)
    have hsub : u64Sub (nowNs % u64Mod)
        (oldest_request_epoch_time (swNewestReply rl.window_duration nowNs l)) =
        nowNs - oldest_request_epoch_time (swNewestReply rl.window_duration nowNs l) := by
      rw [h64]
      simp only [u64Sub, u64Mod] at *
      omega
    simp only [swNewestReply] at hsub
    simp only [SlidingWindowRateLimiter.check_request, if_neg hif,
      swDecision, hcount, if_neg (not_le.mpr h), swNewestReply, hsub]

/-- C5 witness: window size 1, window 60 s, one stored timestamp at 50 s
and a check at 100 s: two timestamps are in the window, so the check is
throttled with `retry_in = 60s - (100s - 50s) = 10s`. -/
theorem sliding_window_decision_follows_spec_witness :
    1 < specCountInWindow 60000000000 100000000000 [50000000000] ∧
    SlidingWindowRateLimiter.check_request ⟨1, 60000000000⟩ 100000000000
        [50000000000] =
      some (.RequestThrottled 10000000000, [100000000000, 50000000000]) :=
  ⟨by decide,
    ((sliding_window_decision_follows_spec ⟨1, 60000000000⟩ 100000000000
      [50000000000] (by decide) (by decide) (by decide) (by decide)).2
        (by decide)).trans (by decide)⟩

/-! ### C9 -/

/-- C9 counterexample: a check in which a stored timestamp (200 s, in
nanoseconds) exceeds the current time (100 s), the throttled branch is
taken and the subtraction is evaluated — yet it does not underflow, because
the last element of the retrieved newest-five list (97 s) is below the
current timestamp.  The claim's second half ("if a stored timestamp exceeds
the current timestamp the subtraction underflows") is therefore false. -/
theorem sliding_window_no_underflow_despite_future_timestamp :
    (200000000000 ∈ ([200000000000, 99000000000, 98000000000, 97000000000,
      96000000000] : List Nat)) ∧
    (100000000000 : Nat) < 200000000000 ∧
    swUnderflows ⟨5, 60000000000⟩ 100000000000
      [200000000000, 99000000000, 98000000000, 97000000000, 96000000000] = false ∧
    SlidingWindowRateLimiter.check_request ⟨5, 60000000000⟩ 100000000000
        [200000000000, 99000000000, 98000000000, 97000000000, 96000000000] =
      some (.RequestThrottled 57000000000,
        [200000000000, 100000000000, 99000000000, 98000000000, 97000000000,
          96000000000]) :=
  ⟨by decide, by decide, by decide, by decide⟩

/-- C9 amended: whenever every stored timestamp is at most the current
wall-clock timestamp (which fits in `u64`), the unchecked subtraction in the
throttled branch cannot underflow; a backward clock jump can make it
underflow, but only when the last element of the retrieved newest-five list
exceeds the current `u64` timestamp (witnessed here by six future
timestamps). -/
theorem sliding_window_subtraction_underflow :
    (∀ (rl : SlidingWindowRateLimiter) (nowNs : Nat) (l : SortedSetState),
      (∀ x ∈ l, x ≤ nowNs) → nowNs < u64Mod → swUnderflows rl nowNs l = false) ∧
    swUnderflows ⟨5, 60000000000⟩ 100000000000
      [205000000000, 204000000000, 203000000000, 202000000000, 201000000000,
        200000000000] = true := by
  refine ⟨?_, by decide⟩
  intro rl nowNs l hle hnow
  unfold swUnderflows
  split
  · rfl
  · simp only [decide_eq_false_iff_not]
    rintro ⟨-, hlt⟩
    have hbound : oldest_request_epoch_time
        (swNewestReply rl.window_duration nowNs l) ≤ nowNs % u64Mod := by
      rw [Nat.mod_eq_of_lt hnow]
      exact oldest_request_epoch_time_le fun x hx =>
        swPostState_le hle hnow x (List.take_subset _ _ hx)
    omega

/-- C9 amended, witness: the no-underflow statement applied to the
five-timestamp state of the counterexample. -/
theorem sliding_window_subtraction_underflow_witness :
    (∀ x ∈ ([200000000000, 99000000000, 98000000000, 97000000000,
      96000000000] : List Nat), x ≤ 200000000000) ∧
    swUnderflows ⟨5, 60000000000⟩ 200000000000
      [200000000000, 99000000000, 98000000000, 97000000000, 96000000000] = false :=
  ⟨by decide, sliding_window_subtraction_underflow.1 ⟨5, 60000000000⟩
    200000000000 _ (by decide) (by decide)⟩

/-! ### C8 helper lemmas -/

/-- The post state of a token-bucket check is the transaction's post state,
whatever the decision. -/
theorem tb_check_request_snd (rl : TokenBucketRateLimiter)
    (s : CounterState) : (rl.check_request s).2 = (rl.transact s).2 := by
  simp only [TokenBucketRateLimiter.check_request]
  split <;> rfl

/-- The post state of a fixed-window check is the transaction's post state. -/
theorem fw_check_request_snd (rl : FixedWindowRateLimiter)
    (s : CounterState) : (rl.check_request s).2 = (rl.transact s).2 := by
  simp only [FixedWindowRateLimiter.check_request]
  split <;> rfl

/-- The allowed branch of the token-bucket decision. -/
theorem tb_check_fst (rl : TokenBucketRateLimiter) (s : CounterState)
    (h : 0 ≤ (rl.transact s).1.1) :
    (rl.check_request s).1 = .RequestAllowed (rl.transact s).1.1.toNat := by
  simp only [TokenBucketRateLimiter.check_request, if_pos h]

/-- The allowed branch of the fixed-window decision. -/
theorem fw_check_fst (rl : FixedWindowRateLimiter) (s : CounterState)
    (h : u64OfInt (rl.transact s).1.1 ≤ rl.window_size) :
    (rl.check_request s).1 =
      .RequestAllowed (rl.window_size - u64OfInt (rl.transact s).1.1) := by
  simp only [FixedWindowRateLimiter.check_request, if_pos h]

/-- The token-bucket transaction on a fresh key. -/
theorem tb_transact_none (rl : TokenBucketRateLimiter)
    (hD0 : rl.bucket_validity ≠ 0) :
    rl.transact none =
      (((rl.bucket_size : Int) - 1, (rl.bucket_validity : Int)),
        some ⟨(rl.bucket_size : Int) - 1, some rl.bucket_validity⟩) := by
  simp [TokenBucketRateLimiter.transact, setnx, expireNX, incrBy, ttlCmd, hD0,
    sub_eq_add_neg]

/-- The token-bucket transaction on a live counter. -/
theorem tb_transact_some (rl : TokenBucketRateLimiter) (v : Int) (t : Nat) :
    rl.transact (some ⟨v, some t⟩) =
      ((v - 1, (t : Int)), some ⟨v - 1, some t⟩) := by
  simp [TokenBucketRateLimiter.transact, setnx, expireNX, incrBy, ttlCmd,
    sub_eq_add_neg]

/-- The fixed-window transaction on a fresh key. -/
theorem fw_transact_none (rl : FixedWindowRateLimiter)
    (hD0 : rl.window_validity ≠ 0) :
    rl.transact none =
      ((1, (rl.window_validity : Int)), some ⟨1, some rl.window_validity⟩) := by
  simp [FixedWindowRateLimiter.transact, setnx, expireNX, incrBy, ttlCmd, hD0]

/-- The fixed-window transaction on a live counter. -/
theorem fw_transact_some (rl : FixedWindowRateLimiter) (v : Int) (t : Nat) :
    rl.transact (some ⟨v, some t⟩) =
      ((v + 1, (t : Int)), some ⟨v + 1, some t⟩) := by
  simp [FixedWindowRateLimiter.transact, setnx, expireNX, incrBy, ttlCmd]

/-- Shape of the token-bucket state after `n + 1` checks on a fresh
identity: the counter holds `bucket_size - (n + 1)` and the TTL is set. -/
theorem tbStateAfter_eq (rl : TokenBucketRateLimiter)
    (hD0 : rl.bucket_validity ≠ 0) :
    ∀ n : Nat, tbStateAfter rl (n + 1) =
      some ⟨(rl.bucket_size : Int) - ((n : Int) + 1), some rl.bucket_validity⟩
  | 0 => by
    rw [tbStateAfter, tb_check_request_snd,
      show tbStateAfter rl 0 = none from rfl, tb_transact_none rl hD0]
    norm_num
  | n + 1 => by
    rw [tbStateAfter, tb_check_request_snd,
      tbStateAfter_eq rl hD0 n, tb_transact_some]
    simp only [Option.some.injEq, CounterEntry.mk.injEq]
    refine ⟨?_, trivial⟩
    push_cast
    ring

/-- Shape of the fixed-window state after `n + 1` checks on a fresh
identity: the counter holds `n + 1` and the TTL is set. -/
theorem fwStateAfter_eq (rl : FixedWindowRateLimiter)
    (hD0 : rl.window_validity ≠ 0) :
    ∀ n : Nat, fwStateAfter rl (n + 1) =
      some ⟨(n : Int) + 1, some rl.window_validity⟩
  | 0 => by
    rw [fwStateAfter, fw_check_request_snd,
      show fwStateAfter rl 0 = none from rfl, fw_transact_none rl hD0]
    simp
  | n + 1 => by
    rw [fwStateAfter, fw_check_request_snd,
      fwStateAfter_eq rl hD0 n, fw_transact_some]
    simp only [Option.some.injEq, CounterEntry.mk.injEq]
    refine ⟨?_, trivial⟩
    push_cast
    ring

/-- Unsigned capture of a small natural counter is the identity. -/
theorem u64OfInt_natCast (k : Nat) (h : k < 2 ^ 64) :
    u64OfInt (k : Int) = k := by
  simp only [u64OfInt, u64Mod]
  omega

/-- The `N`-th sequential token-bucket check on a fresh identity, for
`1 ≤ N ≤ bucket_size`, is allowed with `bucket_size - N` tokens left. -/
theorem tb_nth_allowed (rl : TokenBucketRateLimiter)
    (hD : 1 ≤ rl.bucket_validity) (N : Nat) (h1 : 1 ≤ N)
    (h2 : N ≤ rl.bucket_size) :
    tbNthResponse rl N = .RequestAllowed (rl.bucket_size - N) := by
  have hD0 : rl.bucket_validity ≠ 0 := by omega
  obtain ⟨m, rfl⟩ : ∃ m, N = m + 1 := ⟨N - 1, by omega⟩
  unfold tbNthResponse
  rw [show m + 1 - 1 = m from by omega]
  cases m with
  | zero =>
    rw [show tbStateAfter rl 0 = none from rfl,
      tb_check_fst rl none (by rw [tb_transact_none rl hD0]; dsimp; omega),
      tb_transact_none rl hD0]
    dsimp
    congr 1
    omega
  | succ k =>
    rw [tbStateAfter_eq rl hD0 k,
      tb_check_fst rl _ (by rw [tb_transact_some]; dsimp; omega),
      tb_transact_some]
    dsimp
    congr 1
    omega

/-- The `N`-th sequential fixed-window check on a fresh identity, for
`1 ≤ N ≤ window_size < 2^63`, is allowed with `window_size - N` left. -/
theorem fw_nth_allowed (rl : FixedWindowRateLimiter)
    (hD : 1 ≤ rl.window_validity) (N : Nat) (h1 : 1 ≤ N)
    (h2 : N ≤ rl.window_size) (h3 : rl.window_size < 2 ^ 63) :
    fwNthResponse rl N = .RequestAllowed (rl.window_size - N) := by
  have hD0 : rl.window_validity ≠ 0 := by omega
  obtain ⟨m, rfl⟩ : ∃ m, N = m + 1 := ⟨N - 1, by omega⟩
  unfold fwNthResponse
  rw [show m + 1 - 1 = m from by omega]
  cases m with
  | zero =>
    have hc : u64OfInt (rl.transact none).1.1 = 1 := by
      rw [fw_transact_none rl hD0]
      exact u64OfInt_natCast 1 (by omega)
    rw [show fwStateAfter rl 0 = none from rfl,
      fw_check_fst rl none (by rw [hc]; omega), hc]
  | succ k =>
    have hc : u64OfInt (rl.transact (fwStateAfter rl (k + 1))).1.1 = k + 2 := by
      rw [fwStateAfter_eq rl hD0 k, fw_transact_some]
      dsimp
      rw [show (k : Int) + 1 + 1 = ((k + 2 : Nat) : Int) from by push_cast; ring]
      exact u64OfInt_natCast (k + 2) (by omega)
    rw [fw_check_fst rl _ (by rw [hc]; omega), hc]

/-- `ZADD NX` of an element above every member prepends it. -/
theorem zaddNX_eq_cons {x : Nat} : ∀ {l : List Nat},
    (∀ y ∈ l, y < x) → zaddNX x l = x :: l
  | [], _ => rfl
  | y :: ys, h => by simp [zaddNX, h y (List.mem_cons_self y ys)]

/-- Auxiliary induction for sequential sliding-window checks: starting from
the state holding exactly the previously inserted times `ps` (in descending
order, i.e. `ps.reverse` for ascending `ps`), a run over the remaining
times `ts` produces the strictly descending remaining counters, provided
all times are strictly increasing, lie at least one window after the epoch,
fit in `u64`, lie within one window of each other, and number at most
`window_size`. -/
theorem swResponses_fresh_aux (rl : SlidingWindowRateLimiter) :
    ∀ (ts ps : List Nat),
      List.Sorted (· < ·) (ps ++ ts) →
      (∀ x ∈ ps ++ ts, rl.window_duration ≤ x ∧ x < u64Mod) →
      (∀ x ∈ ps ++ ts, ∀ y ∈ ps ++ ts, x ≤ y + rl.window_duration) →
      ps.length + ts.length ≤ rl.window_size →
      swResponses rl ps.reverse ts =
        (List.range ts.length).map fun i =>
          some (.RequestAllowed (rl.window_size - (ps.length + (i + 1))))
  | [], _, _, _, _, _ => by simp [swResponses]
  | t :: ts, ps, hsort, hmem, hwin, hlen => by
    have htmem : t ∈ ps ++ t :: ts :=
      List.mem_append_right ps (List.mem_cons_self t ts)
    have hD : rl.window_duration ≤ t := (hmem t htmem).1
    have h64 : t < u64Mod := (hmem t htmem).2
    have hmod : t % u64Mod = t := Nat.mod_eq_of_lt h64
    have hif : ¬ t < rl.window_duration := not_lt.mpr hD
    have hltps : ∀ x ∈ ps, x < t := fun x hx =>
      (List.pairwise_append.1 hsort).2.2 x hx t (List.mem_cons_self t ts)
    have hkeep : zremBelow (t - rl.window_duration) ps.reverse = ps.reverse := by
      apply List.filter_eq_self.mpr
      intro x hx
      have hxps : x ∈ ps := List.mem_reverse.1 hx
      have hg := hwin t htmem x (List.mem_append_left _ hxps)
      simp only [decide_eq_true_eq]
      omega
    have hpost : swPostState rl.window_duration t ps.reverse = t :: ps.reverse := by
      unfold swPostState
      rw [hkeep, hmod]
      exact zaddNX_eq_cons fun y hy => hltps y (List.mem_reverse.1 hy)
    have hlen1 : ps.length + (ts.length + 1) ≤ rl.window_size := by
      simpa using hlen
    have hcheck : rl.check_request t ps.reverse =
        some (.RequestAllowed (rl.window_size - (ps.length + 1)),
          t :: ps.reverse) := by
      simp only [SlidingWindowRateLimiter.check_request, if_neg hif,
        swNewestReply, hpost, swDecision, List.length_cons,
        List.length_reverse]
      rw [if_pos (by omega)]
    have hstep : swStep rl t ps.reverse = t :: ps.reverse := by
      unfold swStep
      rw [hcheck]
    have hperm : (ps ++ [t]) ++ ts = ps ++ t :: ts := by simp
    have hsort2 : List.Sorted (· < ·) ((ps ++ [t]) ++ ts) := by
      rw [hperm]; exact hsort
    have hmem2 : ∀ x ∈ (ps ++ [t]) ++ ts,
        rl.window_duration ≤ x ∧ x < u64Mod := by
      intro x hx
      exact hmem x (hperm ▸ hx)
    have hwin2 : ∀ x ∈ (ps ++ [t]) ++ ts, ∀ y ∈ (ps ++ [t]) ++ ts,
        x ≤ y + rl.window_duration := by
      intro x hx y hy
      exact hwin x (hperm ▸ hx) y (hperm ▸ hy)
    have hlen2 : (ps ++ [t]).length + ts.length ≤ rl.window_size := by
      simp only [List.length_append, List.length_cons, List.length_nil]
      omega
    have hrec := swResponses_fresh_aux rl ts (ps ++ [t]) hsort2 hmem2 hwin2 hlen2
    rw [swResponses, hcheck, hstep,
      show t :: ps.reverse = (ps ++ [t]).reverse from by simp, hrec]
    simp only [List.length_cons, List.range_succ_eq_map, List.map_cons,
      List.map_map, Option.map_some, List.length_append, List.length_nil]
    congr 1
    apply List.map_congr_left
    intro i _
    simp only [Function.comp_apply]
    have : rl.window_size - (ps.length + 1 + (i + 1)) =
        rl.window_size - (ps.length + (i + 1 + 1)) := by omega
    rw [this]

/-! ### C8 -/

/-- C8: for each limiter variant with limit `L`, the first `N ≤ L`
sequential checks on a fresh identity are all allowed with strictly
descending remaining counters `L - 1, …, L - N`.  For the counter-based
variants the validity must be a nonzero number of whole seconds (a zero
`EXPIRE` argument would delete the key) and the limit must be
`i64`-representable; for the sliding window the check times must be
strictly increasing, lie within one window of each other and after the
first whole window since the epoch, and fit in `u64`. -/
theorem budget_monotonicity :
    (∀ (rl : TokenBucketRateLimiter) (N : Nat),
      1 ≤ rl.bucket_validity → 1 ≤ N → N ≤ rl.bucket_size →
      rl.bucket_size < 2 ^ 63 →
      tbNthResponse rl N = .RequestAllowed (rl.bucket_size - N)) ∧
    (∀ (rl : FixedWindowRateLimiter) (N : Nat),
      1 ≤ rl.window_validity → 1 ≤ N → N ≤ rl.window_size →
      rl.window_size < 2 ^ 63 →
      fwNthResponse rl N = .RequestAllowed (rl.window_size - N)) ∧
    (∀ (rl : SlidingWindowRateLimiter) (ts : List Nat),
      List.Sorted (· < ·) ts →
      (∀ x ∈ ts, rl.window_duration ≤ x ∧ x < u64Mod) →
      (∀ x ∈ ts, ∀ y ∈ ts, x ≤ y + rl.window_duration) →
      ts.length ≤ rl.window_size →
      swResponses rl [] ts =
        (List.range ts.length).map fun i =>
          some (.RequestAllowed (rl.window_size - (i + 1)))) := by
  refine ⟨fun rl N hD h1 h2 _ => tb_nth_allowed rl hD N h1 h2,
    fun rl N hD h1 h2 h3 => fw_nth_allowed rl hD N h1 h2 h3,
    fun rl ts hs hm hw hl => ?_⟩
  have h := swResponses_fresh_aux rl ts [] (by simpa using hs)
    (by simpa using hm) (by simpa using hw) (by simpa using hl)
  simpa using h

/-- C8 witness: second checks on fresh identities with limit 5 leave 3, and
a two-check sliding-window run yields remaining 4 then 3. -/
theorem budget_monotonicity_witness :
    tbNthResponse ⟨5, 60⟩ 2 = .RequestAllowed 3 ∧
    fwNthResponse ⟨5, 60⟩ 2 = .RequestAllowed 3 ∧
    swResponses ⟨5, 60000000000⟩ [] [100000000000, 101000000000] =
      [some (.RequestAllowed 4), some (.RequestAllowed 3)] :=
  ⟨(budget_monotonicity.1 ⟨5, 60⟩ 2 (by decide) (by decide) (by decide)
      (by norm_num)).trans (by decide),
    (budget_monotonicity.2.1 ⟨5, 60⟩ 2 (by decide) (by decide) (by decide)
      (by norm_num)).trans (by decide),
    (budget_monotonicity.2.2 ⟨5, 60000000000⟩ [100000000000, 101000000000]
      (by decide) (by decide) (by decide) (by decide)).trans (by decide)⟩
